import Mathlib

/-!
Shallow embedding of `sequelize-file` (authoritative source:
`src/SequelizeFile.js`, the ES-module version; `lib/SequelizeFile.js` is an
older compiled artifact of the same library).  The library wraps a Sequelize
model with file-attachment management: lifecycle hooks classify the in-memory
value of a virtual attribute, download or move the file, validate its MIME
type, persist a public-relative path and generate resized derivatives.

JavaScript strings are modelled as Lean `String`s (lists of characters);
machine integers do not occur.  The two regular expressions applied to
user-controlled strings (`/(.+)(\..+)$/`, `^<escaped prefix>`) are embedded
by their exact match semantics on character lists; `new RegExp(p).test(s)`
for a pattern string without metacharacters is unanchored substring search.
-/

namespace SequelizeFile

/-- Result of evaluating a JavaScript expression: either a value or a raised
`ReferenceError` / `TypeError` (the exception message, without the quote
characters of the original). -/
inductive JsEval (α : Type) where
  | val (a : α)
  | referenceError (msg : String)
deriving DecidableEq

/-- JavaScript primitive value, as far as `typeof` distinguishes the cases
exercised by the library. -/
inductive JsValue where
  | str (s : String)
  | num (n : Int)
  | boolean (b : Bool)
  | null
  | undef
deriving DecidableEq

/-- The `typeof` operator on the modelled values (`typeof null` is
`"object"` in JavaScript). -/
def typeofJs : JsValue → String
  | .str _ => "string"
  | .num _ => "number"
  | .boolean _ => "boolean"
  | .null => "object"
  | .undef => "undefined"

/-- Does the pattern (second argument) match literally at the start of the
text (first argument)? -/
def matchHere : List Char → List Char → Bool
  | _, [] => true
  | [], _ :: _ => false
  | h :: hs, p :: ps => (h == p) && matchHere hs ps

/-- Does the pattern occur literally anywhere inside the text?  This is the
semantics of `new RegExp(pat).test(s)` for a pattern without regex
metacharacters: the match is unanchored. -/
def occursIn (pat : List Char) : List Char → Bool
  | [] => pat.isEmpty
  | c :: rest => matchHere (c :: rest) pat || occursIn pat rest

/-- Embedding of `new RegExp(pat).test(s)` for a literal (metacharacter-free)
pattern string, as used by `_attachFile` on `this._MIMETYPE` and by the
`/image/` test on `file.mimetype`. -/
def jsRegexTestLit (pat : List Char) (s : String) : Bool :=
  occursIn pat s.data

/-- The pattern of the `/image/` regex literal. -/
def imagePattern : List Char := "image".data

/-- Split a character list around the last occurrence of `ch` that is
followed by at least one character: returns `(before, after)` with
`before ++ ch :: after` the input.  This is the backtracking behaviour of the
greedy regexes `/(.+)(\..+)$/` and `/(.+)(\/.+)$/` (and of
`/\/([^\/]+)$/`), which select the rightmost such separator. -/
def splitAtLastCh (ch : Char) : List Char → Option (List Char × List Char)
  | [] => none
  | c :: rest =>
    match splitAtLastCh ch rest with
    | some (b, a) => some (c :: b, a)
    | none => if c == ch && !rest.isEmpty then some ([], rest) else none

/-- Character-level embedding of
`path.replace(/(.+)(\..+)$/, '$1_' + size + '$2')`: insert `_size` before the
last dot that has at least one character on each side; if no such dot exists
the regex does not match and the string is returned unchanged. -/
def replaceExtChars (cs sizeCs : List Char) : List Char :=
  match splitAtLastCh '.' cs with
  | some (stem, after) =>
    match stem with
    | [] => cs
    | _ :: _ => stem ++ '_' :: sizeCs ++ '.' :: after
  | none => cs

/-- String form of the replacement performed by `pathWithSize` on a string
argument. -/
def pathWithSizeStr (p size : String) : String :=
  ⟨replaceExtChars p.data size.data⟩

/-- Embedding of the exported `pathWithSize(path, size)`: throws a
`TypeError` naming `typeof path` when the path is not a string, otherwise
inserts `_size` before the last extension. -/
def pathWithSize (path : JsValue) (size : String) : Except String String :=
  match path with
  | .str p => .ok (pathWithSizeStr p size)
  | v => .error ("Path must be a string, but got " ++ typeofJs v)

/-- Embedding of `_publicPath(path)`:
`path.replace(new RegExp('^' + escapeStringRegexp(this._PUBLIC_PATH)), '')`.
`escapeStringRegexp` makes every metacharacter of the prefix literal and the
`^` anchors the match at the start, so the composite strips the prefix
exactly when the path literally starts with it and otherwise returns the
path unchanged. -/
def publicPath (pub path : String) : String :=
  if matchHere path.data pub.data then ⟨path.data.drop pub.data.length⟩ else path

/-- Embedding of `_fromPublic(path)`: prepends the public prefix. -/
def fromPublic (pub path : String) : String := pub ++ path

/-- Embedding of `nameFromUrl(url)`: `url.match(/\/([^\/]+)$/)[1]`, the
non-empty slash-free segment after the last `/`; `none` models the `null`
match (on which the source code would raise a `TypeError`). -/
def nameFromUrl (url : String) : Option String :=
  match splitAtLastCh '/' url.data with
  | some (_, a) => if a.contains '/' then none else some ⟨a⟩
  | none => none

/-- Split a character list on every occurrence of `ch`
(JavaScript `String.prototype.split` with a single-character separator). -/
def splitOnCh (ch : Char) : List Char → List (List Char)
  | [] => [[]]
  | c :: rest =>
    let r := splitOnCh ch rest
    if c == ch then [] :: r
    else
      match r with
      | [] => [[c]]
      | h :: t => (c :: h) :: t

/-- Embedding of `getFileInfo(file)`: split on `'.'`, the extension is the
last component and the name is the rest re-joined with dots. -/
def getFileInfo (file : String) : String × String :=
  let arr := splitOnCh '.' file.data
  (⟨List.intercalate ['.'] arr.dropLast⟩, ⟨arr.getLastD []⟩)

/-- Descriptor of one entry of the `sizes` option: a bare scalar width, a
string of the form `"<W>x<H><modifiers>"`, or an object `{ size, quality }`
(`quality` may be absent, modelled as `none`). -/
inductive SizeDesc where
  | num (n : Int)
  | str (s : String)
  | obj (size : JsValue) (quality : Option Int)
deriving DecidableEq

/-- JavaScript string-disjunction `a || b`: the empty string is the only
falsy string. -/
def jsOrStr (a b : String) : String := if a == "" then b else a

/-- The private configuration computed by the `SequelizeField` constructor
(fields `_VIRTUAL_ATTRIBUTE_NAME` through `_WRONG_TYPE_MESSAGE`).  The
mimetype matcher is kept as the character list of its literal pattern.
`sizes` is `none` when the option was `undefined`; `folderKey` is `none`
when the option was `null` (the `folderKey: null` configuration). -/
structure Config where
  virtualAttribute : String
  pathAttribute : String
  mimetype : List Char
  sizes : Option (List (String × SizeDesc))
  crop : Bool
  cleanup : Bool
  publicPath : String
  basePath : String
  folderKey : Option String
  groupByAttribute : Bool
  wrongTypeMessage : String
deriving DecidableEq

/-- The constructor options object.  `none` models an `undefined` option;
for `folderKey`, which is validated as `String | Undefined | Null`, the
outer `none` is `undefined` and `some none` is `null`. -/
structure FieldOptions where
  virtualAttribute : String
  mimetype : List Char
  pathAttribute : Option String := none
  sizes : Option (List (String × SizeDesc)) := none
  crop : Option Bool := none
  basepath : Option String := none
  publicPath : Option String := none
  cleanup : Option Bool := none
  folderKey : Option (Option String) := none
  groupByAttribute : Option Bool := none
  wrongTypeMessage : Option String := none
deriving DecidableEq

/-- Embedding of the private-property assignments of the `SequelizeField`
constructor.  (The constructor also type-checks the options and rejects
`crop`/`sizes` on a non-image mimetype; those guards restrict which
configurations exist and do not change any assignment, so they are not
modelled.)  An `undefined` option collapses with the empty string under
JavaScript `||`, hence the `Option.getD "" `. -/
def mkConfig (o : FieldOptions) : Config :=
  let pub := jsOrStr (o.publicPath.getD "") "public"
  { virtualAttribute := o.virtualAttribute
    pathAttribute := jsOrStr (o.pathAttribute.getD "") (o.virtualAttribute ++ "Path")
    mimetype := o.mimetype
    sizes := o.sizes
    crop := o.crop.getD false
    cleanup := o.cleanup.getD false
    publicPath := pub
    basePath := jsOrStr (o.basepath.getD "") (pub ++ "/uploads")
    folderKey :=
      match o.folderKey with
      | none => some "id"
      | some none => none
      | some (some s) => some (jsOrStr s "id")
    groupByAttribute := o.groupByAttribute.getD true
    wrongTypeMessage := jsOrStr (o.wrongTypeMessage.getD "") "Wrong file\x27s MIME type" }

/-- In-memory value of the virtual attribute when a hook fires.  An object
value records whether its `updated` property is truthy and whether it has
string `mimetype` and `path` properties (absent properties are `none`). -/
inductive FileValue where
  | undef
  | null
  | str (s : String)
  | obj (updated : Bool) (mimetype : Option String) (path : Option String)
deriving DecidableEq

/-- The sentinel `{ updated: true }` written back after a successful attach. -/
def processedMarker : FileValue := .obj true none none

/-- The early-return guard of `_setFile`:
`( file && file.updated ) || typeof file === 'undefined'`. -/
def isProcessedOrUntouched : FileValue → Bool
  | .obj true _ _ => true
  | .undef => true
  | _ => false

/-- The observable per-instance state touched by the hooks: the virtual
attribute value, the persisted path attribute (`none` models SQL NULL) and
the value of the grouping-key attribute as interpolated into paths. -/
structure ModelInstance where
  virtualVal : FileValue
  pathVal : Option String
  folderKeyVal : String
deriving DecidableEq

/-- Side effects performed by the hooks, in program order.  `unlinkFile` is
the best-effort `fs.unlink` whose callback ignores every error;
`writePathAttr` is `setDataValue` on the path attribute; `updateCall` is the
extra `instance.update` issued on the after-create pass; `resizeWrite` is
one derivative write of the resize fan-out (target file and quality);
`headRequest`, `mkdirpDir` and `streamGet` are the steps of `download`. -/
inductive HookEffect where
  | unlinkFile (path : String)
  | writePathAttr (value : Option String)
  | updateCall (attr : String) (value : Option String)
  | resizeWrite (path : String) (quality : Int)
  | moveFile (src dst : String)
  | headRequest (url : String)
  | mkdirpDir (dir : String)
  | streamGet (url : String) (path : String)
deriving DecidableEq

/-- Errors with which a hook promise can reject: a Sequelize
`ValidationError` carrying a message and the virtual attribute name as the
field path (built by `_validationError`), a raised JavaScript error, or a
failure of the `mv` call. -/
inductive HookError where
  | validation (message field : String)
  | jsError (message : String)
  | moveError
deriving DecidableEq

/-- A staged file as handed to `_attachFile`: local path and MIME type. -/
structure StagedFile where
  path : String
  mimetype : String
deriving DecidableEq

/-- The message operand of the `throw` in `_attachFile`:
`this._WRONG_TYPE_MESSAGE || ` followed by a template string that references
the identifiers `mimetype` and `file.type`, of which `mimetype` is not in
scope there — evaluating the fallback raises a `ReferenceError`.  `||`
short-circuits, so the fallback is reached only when the configured message
is falsy (empty). -/
def attachWrongTypeMessage (cfg : Config) : JsEval String :=
  if cfg.wrongTypeMessage == "" then .referenceError "mimetype is not defined"
  else .val cfg.wrongTypeMessage

/-- One callback invocation of `_forEachSize` as consumed by `_resizeAll`:
the `size` argument, the derivative name, and `options.quality`.  For an
object descriptor the source evaluates `let size = ... ? size.size : ...`,
reading the just-declared `size` in its own initializer: a temporal-dead-zone
`ReferenceError` (the compiled `lib` build reads `.size` of `undefined`, a
`TypeError`), so no callback runs for an object descriptor. -/
def sizeCallOf (key : String) (d : SizeDesc) : JsEval (JsValue × String × Option Int) :=
  match d with
  | .num n => .val (.num n, key, none)
  | .str s => .val (.str s, key, none)
  | .obj _ _ => .referenceError "Cannot access size before initialization"

/-- Iteration of `_forEachSize` over the whole sizes mapping (insertion
order); the first object descriptor aborts the loop with its error. -/
def forEachSizeCalls : List (String × SizeDesc) → JsEval (List (JsValue × String × Option Int))
  | [] => .val []
  | (k, d) :: rest =>
    match sizeCallOf k d with
    | .referenceError e => .referenceError e
    | .val c =>
      match forEachSizeCalls rest with
      | .referenceError e => .referenceError e
      | .val cs => .val (c :: cs)

/-- Is a size descriptor object-form?  (`typeof options === 'object'`). -/
def isObjDesc : SizeDesc → Bool
  | .obj _ _ => true
  | _ => false

/-- The derivative-unlink loop of `_destroyFileHook`: one `_forEachSize`
callback per descriptor unlinks `pathWithSize(original, name)`, in mapping
order.  Computing `size` for an object-form descriptor raises the
temporal-dead-zone `ReferenceError` (see `sizeCallOf`) before that
descriptor's callback runs, aborting the loop: the result is the prefix of
derivative paths unlinked before the crash, with the raised error. -/
def destroyForEach (original : String) : List (String × SizeDesc) → List String × Option String
  | [] => ([], none)
  | (k, d) :: rest =>
    match sizeCallOf k d with
    | .referenceError e => ([], some e)
    | .val _ =>
      match destroyForEach original rest with
      | (fx, err) => (pathWithSizeStr original k :: fx, err)

/-- Embedding of `_destroyFileHook`: nothing unless cleanup is enabled and a
non-empty path is stored; otherwise the `_forEachSize` loop unlinks each
configured derivative of `_fromPublic` of the stored path, and — only when
that loop completes without raising — the original is unlinked afterwards.
Returns the unlinked paths in order and the error raised out of the hook, if
any.  Completed deletions are fire-and-forget. -/
def destroyFileRun (cfg : Config) (inst : ModelInstance) : List String × Option String :=
  if !cfg.cleanup then ([], none)
  else
    match inst.pathVal with
    | none => ([], none)
    | some p =>
      if p == "" then ([], none)
      else
        let original := fromPublic cfg.publicPath p
        match cfg.sizes with
        | none => ([original], none)
        | some sizes =>
          match destroyForEach original sizes with
          | (fx, none) => (fx ++ [original], none)
          | (fx, some e) => (fx, some e)

/-- Default of the `quality` parameter of `resize`: `DEFAULT_QUALITY = 100`
is used whenever the caller passes `undefined` (no quality given). -/
def resizeQuality (q : Option Int) : Int := q.getD 100

/-- Target filename of one `resize` call:
`name ? pathWithSize(path, name) : path`. -/
def resizeTarget (path name : String) : String :=
  if name == "" then path else pathWithSizeStr path name

/-- Embedding of `parseSize`: the match of `/(\d+)?x?(\d+)?(.+)?/` at the
start of the string — greedy digits, an optional literal `x`, greedy digits,
and the remainder as modifier flags; absent groups are `none`. -/
def parseSize (s : String) : Option String × Option String × Option String :=
  let ws := s.data.takeWhile Char.isDigit
  let r1 := s.data.dropWhile Char.isDigit
  let r2 := match r1 with
    | 'x' :: t => t
    | _ => r1
  let hs := r2.takeWhile Char.isDigit
  let r3 := r2.dropWhile Char.isDigit
  ((match ws with | [] => none | _ => some ⟨ws⟩),
   (match hs with | [] => none | _ => some ⟨hs⟩),
   (match r3 with | [] => none | _ => some ⟨r3⟩))

/-- Outcome of `_attachFile`: the effects it performs in order, the
resulting in-memory instance state, and the rejection error if any. -/
structure AttachOutcome where
  effects : List HookEffect
  inst : ModelInstance
  error : Option HookError
deriving DecidableEq

/-- Embedding of `_attachFile(instance, file, afterCreate, options)`.
If the configured matcher does not occur in `file.mimetype`, the temporary
file is unlinked best-effort and a field-scoped `ValidationError` with the
configured wrong-type message is thrown; the instance is untouched.
Otherwise: the destroy hook runs when cleanup is enabled — an error raised
out of its `_forEachSize` loop (object-form size descriptor) propagates out
of `_attachFile` there, before any path write; then the path attribute is
set to the public-relative path (the promise executor runs synchronously,
and on the after-create pass an `instance.update` with the same value
follows); the virtual attribute is overwritten with `{ updated: true }`; and
when sizes are configured and the file is an image the resize fan-out writes
every derivative (aborting with the `_forEachSize` error when the sizes
mapping contains an object descriptor). -/
def attachFile (cfg : Config) (inst : ModelInstance) (file : StagedFile)
    (afterCreate : Bool) : AttachOutcome :=
  if !jsRegexTestLit cfg.mimetype file.mimetype then
    { effects := [.unlinkFile file.path]
      inst := inst
      error := some (match attachWrongTypeMessage cfg with
        | .val m => .validation m cfg.virtualAttribute
        | .referenceError e => .jsError e) }
  else
    match (if cfg.cleanup then destroyFileRun cfg inst else ([], none)) with
    | (fx, some e) =>
      { effects := fx.map HookEffect.unlinkFile, inst := inst, error := some (.jsError e) }
    | (fx, none) =>
      let cleanupFx := fx.map HookEffect.unlinkFile
      let newPath := publicPath cfg.publicPath file.path
      let baseFx := cleanupFx ++ [HookEffect.writePathAttr (some newPath)]
        ++ (if afterCreate then [HookEffect.updateCall cfg.pathAttribute (some newPath)] else [])
      let inst1 : ModelInstance := { inst with pathVal := some newPath, virtualVal := processedMarker }
      if cfg.sizes.isSome && jsRegexTestLit imagePattern file.mimetype then
        match forEachSizeCalls (cfg.sizes.getD []) with
        | .referenceError e => { effects := baseFx, inst := inst1, error := some (.jsError e) }
        | .val calls =>
          { effects := baseFx ++ calls.map
              (fun c => HookEffect.resizeWrite (resizeTarget file.path c.2.1) (resizeQuality c.2.2))
            inst := inst1
            error := none }
      else { effects := baseFx, inst := inst1, error := none }

/-- The HEAD response observed by `download`: status line and the
`content-type` header. -/
structure HeadResponse where
  statusCode : Int
  statusMessage : String
  contentType : String
deriving DecidableEq

/-- The value `download` resolves with. -/
structure DownloadedFile where
  mimetype : String
  path : String
deriving DecidableEq

/-- The rejection string built by `download` from the remote status line. -/
def downloadErrorMessage (url : String) (res : HeadResponse) : String :=
  "Can\x27t download resource: \"" ++ url ++ "\" responded with \""
    ++ toString res.statusCode ++ ": " ++ res.statusMessage ++ "\""

/-- The directory into which `download` creates the staging file:
`path.match(/(.+)(\/.+)$/)[1]`, everything before the last slash that has at
least one character on each side; `none` models the `null` match. -/
def basePathOf (path : String) : Option String :=
  match splitAtLastCh '/' path.data with
  | some (b, _) =>
    match b with
    | [] => none
    | _ :: _ => some ⟨b⟩
  | none => none

/-- Embedding of `download(url, path)`, parametrised by the HEAD response.
A status below 200 or at least 400 rejects with the status line and nothing
further happens; otherwise the staging directory is created, the GET body is
streamed to the staging file, and the promise resolves with the mimetype
taken from the `content-type` header once the write stream closes (the
resolution therefore comes after every listed step). -/
def download (url path : String) (res : HeadResponse) :
    List HookEffect × Except String DownloadedFile :=
  if res.statusCode < 200 ∨ 400 ≤ res.statusCode then
    ([.headRequest url], .error (downloadErrorMessage url res))
  else
    match basePathOf path with
    | none => ([.headRequest url], .error "TypeError: null match")
    | some dir =>
      ([.headRequest url, .mkdirpDir dir, .streamGet url path],
       .ok { mimetype := res.contentType, path := path })

/-- Embedding of the `_MODEL_PATH` computation in `_addHooksTo`:
`basePath/<pluralized lower-cased model name>` and, when grouping by
attribute is on, a further `/<pluralized lower-cased attribute>` segment.
The external `pluralize` library is the parameter `pl`. -/
def modelPathOf (pl : String → String) (cfg : Config) (modelName : String) : String :=
  cfg.basePath ++ "/" ++ pl modelName.toLower
    ++ (if cfg.groupByAttribute then "/" ++ pl cfg.virtualAttribute.toLower else "")

/-- Embedding of `_getInstancePath(instance)`: the model path, extended with
the instance value of the grouping key unless the grouping key is `null` or
grouping by attribute is off. -/
def instancePathOf (cfg : Config) (modelPath : String) (inst : ModelInstance) : String :=
  if cfg.folderKey.isNone || !cfg.groupByAttribute then modelPath
  else modelPath ++ "/" ++ inst.folderKeyVal

/-- Embedding of `_getFileNameForMoving(instance, tmp)`: the last URL
segment of `tmp`, with `_<hash>` spliced in before its extension when the
grouping key is `null` or grouping by attribute is off (`hash` stands for
the `Math.random().toString(36).substr(2, 5)` 5-character random suffix),
appended to the instance path.  `none` models the `TypeError` raised by
`nameFromUrl` when `tmp` has no matching segment. -/
def getFileNameForMoving (cfg : Config) (modelPath : String) (inst : ModelInstance)
    (hash : String) (tmp : String) : Option String :=
  (nameFromUrl tmp).map fun fileName =>
    let fileName :=
      if cfg.folderKey.isNone || !cfg.groupByAttribute then
        let (name, ext) := getFileInfo fileName
        name ++ "_" ++ hash ++ "." ++ ext
      else fileName
    instancePathOf cfg modelPath inst ++ "/" ++ fileName

/-- Which branch of `_setFile` runs for a given virtual-attribute value, in
the source order of its guards: the early return for a processed or
untouched value; the local-descriptor branch for an object with string
`mimetype` and `path`; the download branch for a string; the null branch;
and the implicit fall-through for any other object. -/
inductive SetFileBranch where
  | earlyReturn
  | localAttach (path mimetype : String)
  | remoteAttach (url : String)
  | nullClear
  | skip
deriving DecidableEq

/-- Branch selection of `_setFile`. -/
def setFileBranch : FileValue → SetFileBranch
  | .obj true _ _ => .earlyReturn
  | .undef => .earlyReturn
  | .obj false (some m) (some p) => .localAttach p m
  | .obj false _ _ => .skip
  | .str s => .remoteAttach s
  | .null => .nullClear

/-- Environment of one hook invocation: the random filename suffix, whether
the `mv` call succeeds, and the HEAD response of a remote fetch. -/
structure HookEnv where
  hash : String
  moveOk : Bool
  head : HeadResponse
deriving DecidableEq

/-- Result of one `_setFile` invocation. -/
structure HookRun where
  effects : List HookEffect
  inst : ModelInstance
  error : Option HookError
deriving DecidableEq

/-- Embedding of `_setFile(instance, options, afterCreate)`, the body of the
`afterCreate` and `beforeUpdate` hooks.  A processed or untouched value
returns immediately with no effect.  A local descriptor is moved to its
planned name (`_moveFromTemporary`) and attached.  A string is downloaded to
its planned name and attached, a download rejection being wrapped into a
field-scoped `ValidationError`.  An explicit `null` runs the destroy hook
when cleanup is enabled and then clears the path attribute — unless the
destroy hook raises (object-form size descriptor in its `_forEachSize`
loop), in which case the error propagates out of the hook before the
`setDataValue(PATH, null)` line and the path attribute keeps its value. -/
def setFileRun (cfg : Config) (modelPath : String) (inst : ModelInstance)
    (env : HookEnv) (afterCreate : Bool) : HookRun :=
  match setFileBranch inst.virtualVal with
  | .earlyReturn => { effects := [], inst := inst, error := none }
  | .skip => { effects := [], inst := inst, error := none }
  | .nullClear =>
    match (if cfg.cleanup then destroyFileRun cfg inst else ([], none)) with
    | (fx, some e) =>
      { effects := fx.map HookEffect.unlinkFile, inst := inst, error := some (.jsError e) }
    | (fx, none) =>
      { effects := fx.map HookEffect.unlinkFile ++ [HookEffect.writePathAttr none]
        inst := { inst with pathVal := none }
        error := none }
  | .localAttach p m =>
    match getFileNameForMoving cfg modelPath inst env.hash p with
    | none => { effects := [], inst := inst, error := some (.jsError "TypeError: null match") }
    | some dst =>
      if env.moveOk then
        let o := attachFile cfg inst { path := dst, mimetype := m } afterCreate
        { effects := HookEffect.moveFile p dst :: o.effects, inst := o.inst, error := o.error }
      else
        { effects := [HookEffect.moveFile p dst], inst := inst, error := some .moveError }
  | .remoteAttach url =>
    match getFileNameForMoving cfg modelPath inst env.hash url with
    | none => { effects := [], inst := inst, error := some (.jsError "TypeError: null match") }
    | some filename =>
      let (steps, res) := download url filename env.head
      match res with
      | .error msg =>
        { effects := steps, inst := inst, error := some (.validation msg cfg.virtualAttribute) }
      | .ok file =>
        let o := attachFile cfg inst { path := file.path, mimetype := file.mimetype } afterCreate
        { effects := steps ++ o.effects, inst := o.inst, error := o.error }

/-- Sample field options: `{ virtualAttribute: 'pic', mimetype: /image/ }`,
the default options of the test suite. -/
def sampleO : FieldOptions := { virtualAttribute := "pic", mimetype := "image".data }

/-- Sample instance state before any attach. -/
def sampleInst : ModelInstance :=
  { virtualVal := .undef, pathVal := some "/uploads/a.png", folderKeyVal := "1" }

/-- Sample instance whose virtual attribute holds the processed marker. -/
def markerInst : ModelInstance :=
  { virtualVal := processedMarker, pathVal := some "/uploads/a.png", folderKeyVal := "1" }

/-- Sample staged file with a rejected MIME type. -/
def sampleBad : StagedFile :=
  { path := "public/uploads/a.js", mimetype := "application/javascript" }

/-- Sample staged file with an accepted MIME type. -/
def sampleGood : StagedFile :=
  { path := "public/uploads/a.png", mimetype := "image/png" }

/-- Sample staged file whose MIME type contains `image` strictly inside. -/
def sampleGoodXml : StagedFile :=
  { path := "public/uploads/a.img", mimetype := "application/image+xml" }

/-- Sample hook environment. -/
def envAny : HookEnv :=
  { hash := "abcde", moveOk := true,
    head := { statusCode := 200, statusMessage := "OK", contentType := "image/png" } }

/-- Sample pluralizer standing in for the external `pluralize` library. -/
def plEx : String → String := fun s => s ++ "s"

/-- Sample options with cleanup on and one configured derivative size. -/
def oCleanup : FieldOptions :=
  { sampleO with cleanup := some true, sizes := some [("small", SizeDesc.num 64)] }

/-- Sample instance whose virtual attribute was set to `null`. -/
def nullInst : ModelInstance :=
  { virtualVal := .null, pathVal := some "/uploads/a.png", folderKeyVal := "1" }

/-- Sample options with `folderKey: null` (grouping key disabled). -/
def oNullKey : FieldOptions := { sampleO with folderKey := some none }

/-- Sample options with cleanup on and an object-form size descriptor
`{ thumb: { size: 64, quality: 80 } }`. -/
def oCleanupObj : FieldOptions :=
  { sampleO with cleanup := some true,
                 sizes := some [("thumb", SizeDesc.obj (.num 64) (some 80))] }

/-! ### Helper lemmas -/

/-- A pattern matches at the start of itself followed by anything. -/
theorem matchHere_append_self (p t : List Char) : matchHere (p ++ t) p = true := by
  induction p with
  | nil => cases t <;> simp [matchHere]
  | cons c cs ih => simp [matchHere, ih]

/-- A pattern occurs in any text that contains it contiguously. -/
theorem occursIn_append_middle (pat pre post : List Char) :
    occursIn pat (pre ++ pat ++ post) = true := by
  induction pre with
  | nil =>
    cases hp : pat with
    | nil => cases post <;> simp [occursIn, hp, matchHere]
    | cons c cs =>
      simp only [List.nil_append, List.cons_append, occursIn, Bool.or_eq_true]
      left
      exact matchHere_append_self (c :: cs) post
  | cons c cs ih =>
    simp only [List.cons_append, occursIn, Bool.or_eq_true]
    right
    exact ih

/-- Without an occurrence of the separator there is nothing to split at. -/
theorem splitAtLastCh_of_not_mem (ch : Char) (cs : List Char) (h : ch ∉ cs) :
    splitAtLastCh ch cs = none := by
  induction cs with
  | nil => rfl
  | cons c rest ih =>
    rw [List.mem_cons, not_or] at h
    obtain ⟨h1, h2⟩ := h
    have hne : (c == ch) = false := by
      simp only [beq_eq_false_iff_ne, Ne]
      exact fun e => h1 e.symm
    simp [splitAtLastCh, ih h2, hne]

/-- Splitting at the last separator of `stem ++ ch :: ext` when `ext` is a
non-empty separator-free list yields `(stem, ext)`. -/
theorem splitAtLastCh_append (ch : Char) (stem ext : List Char)
    (hne : ext ≠ []) (hmem : ch ∉ ext) :
    splitAtLastCh ch (stem ++ ch :: ext) = some (stem, ext) := by
  induction stem with
  | nil =>
    simp [splitAtLastCh, splitAtLastCh_of_not_mem ch ext hmem, hne]
  | cons c cs ih =>
    simp [splitAtLastCh, ih]

/-- On a sizes mapping free of object-form descriptors the destroy-hook
loop completes, unlinking every derivative in order and raising nothing. -/
theorem destroyForEach_all_not_obj (original : String) (sizes : List (String × SizeDesc))
    (h : sizes.all (fun nd => !isObjDesc nd.2) = true) :
    destroyForEach original sizes
      = (sizes.map (fun nd => pathWithSizeStr original nd.1), none) := by
  induction sizes with
  | nil => rfl
  | cons nd rest ih =>
    obtain ⟨k, d⟩ := nd
    rw [List.all_cons, Bool.and_eq_true] at h
    obtain ⟨h1, h2⟩ := h
    cases d with
    | obj s q => simp [isObjDesc] at h1
    | num n => simp [destroyForEach, sizeCallOf, ih h2]
    | str s => simp [destroyForEach, sizeCallOf, ih h2]

/-- The wrong-type message computed by the constructor is never empty. -/
theorem mkConfig_wrongTypeMessage_ne (o : FieldOptions) :
    ((mkConfig o).wrongTypeMessage == "") = false := by
  simp only [mkConfig, jsOrStr]
  split <;> simp_all

/-- Consequently the fallback operand of the `throw` in `_attachFile` is
never evaluated: the message is always the configured-or-default string. -/
theorem attachWrongTypeMessage_mkConfig (o : FieldOptions) :
    attachWrongTypeMessage (mkConfig o) = .val (mkConfig o).wrongTypeMessage := by
  simp [attachWrongTypeMessage, mkConfig_wrongTypeMessage_ne]

/-- A successful `_attachFile` always leaves the processed marker on the
virtual attribute. -/
theorem attachFile_success_marker (cfg : Config) (inst : ModelInstance)
    (file : StagedFile) (ac : Bool)
    (h : (attachFile cfg inst file ac).error = none) :
    (attachFile cfg inst file ac).inst.virtualVal = processedMarker := by
  revert h
  unfold attachFile
  split
  · intro h
    simp at h
  · split
    · intro h
      simp at h
    · dsimp only
      split
      · split
        · intro h
          simp at h
        · intro _
          rfl
      · intro _
        rfl

/-- A processed or untouched value selects the early-return branch. -/
theorem setFileBranch_early (v : FileValue) (h : isProcessedOrUntouched v = true) :
    setFileBranch v = .earlyReturn := by
  cases v with
  | obj u m p => cases u <;> simp_all [isProcessedOrUntouched, setFileBranch]
  | undef => rfl
  | null => simp [isProcessedOrUntouched] at h
  | str s => simp [isProcessedOrUntouched] at h

/-- The early-return branch of `_setFile` does nothing. -/
theorem setFileRun_of_early (cfg : Config) (mp : String) (inst : ModelInstance)
    (env : HookEnv) (ac : Bool) (h : setFileBranch inst.virtualVal = .earlyReturn) :
    setFileRun cfg mp inst env ac = { effects := [], inst := inst, error := none } := by
  unfold setFileRun
  rw [h]

/-! ### Claim theorems -/

/-- Claim C1: if the virtual attribute holds the processed marker (an object
with a truthy `updated` property) or is `undefined` when a lifecycle hook
fires, `_setFile` returns immediately — no download, move, resize,
path-attribute write or cleanup effect, no state change, no error; and a
successful `_attachFile` leaves the marker `{ updated: true }` on the
instance, so re-invoking the hook on that instance is a no-op. -/
theorem setFile_skips_processed (cfg : Config) (mp : String) (env : HookEnv)
    (ac : Bool) (inst : ModelInstance) :
    (isProcessedOrUntouched inst.virtualVal = true →
      setFileRun cfg mp inst env ac = { effects := [], inst := inst, error := none }) ∧
    (∀ (file : StagedFile) (ac0 : Bool),
      (attachFile cfg inst file ac0).error = none →
      setFileRun cfg mp (attachFile cfg inst file ac0).inst env ac
        = { effects := []
            inst := (attachFile cfg inst file ac0).inst
            error := none }) := by
  constructor
  · intro h
    exact setFileRun_of_early cfg mp inst env ac (setFileBranch_early _ h)
  · intro file ac0 h
    refine setFileRun_of_early cfg mp _ env ac ?_
    rw [attachFile_success_marker cfg inst file ac0 h]
    rfl

/-- Witness for C1 at concrete inputs: a marker-valued instance is left
untouched, and so is the instance produced by a successful attach. -/
theorem setFile_skips_processed_witness :
    (setFileRun (mkConfig sampleO) "mp" markerInst envAny false
      = { effects := [], inst := markerInst, error := none }) ∧
    (setFileRun (mkConfig sampleO) "mp"
        (attachFile (mkConfig sampleO) sampleInst sampleGood false).inst envAny false
      = { effects := []
          inst := (attachFile (mkConfig sampleO) sampleInst sampleGood false).inst
          error := none }) :=
  ⟨(setFile_skips_processed (mkConfig sampleO) "mp" envAny false markerInst).1 (by decide),
   (setFile_skips_processed (mkConfig sampleO) "mp" envAny false sampleInst).2
     sampleGood false (by decide)⟩

/-- Claim C2: when the configured matcher does not occur in the staged
file's mimetype, `_attachFile` unlinks the temporary file (best-effort),
throws a `ValidationError` scoped to the virtual attribute whose message is
the configured-or-default wrong-type message, and leaves the instance (in
particular the path attribute) untouched. -/
theorem attachFile_mime_gate (o : FieldOptions) (inst : ModelInstance)
    (file : StagedFile) (ac : Bool)
    (h : jsRegexTestLit (mkConfig o).mimetype file.mimetype = false) :
    attachFile (mkConfig o) inst file ac =
      { effects := [.unlinkFile file.path]
        inst := inst
        error := some (.validation
          (jsOrStr (o.wrongTypeMessage.getD "") "Wrong file\x27s MIME type")
          o.virtualAttribute) } := by
  unfold attachFile
  rw [h, attachWrongTypeMessage_mkConfig o]
  simp [mkConfig]

/-- Witness for C2: matcher `/image/` against `application/javascript`. -/
theorem attachFile_mime_gate_witness :
    attachFile (mkConfig sampleO) sampleInst sampleBad false =
      { effects := [.unlinkFile sampleBad.path]
        inst := sampleInst
        error := some (.validation
          (jsOrStr ((sampleO.wrongTypeMessage).getD "") "Wrong file\x27s MIME type")
          sampleO.virtualAttribute) } :=
  attachFile_mime_gate sampleO sampleInst sampleBad false (by decide)

/-- Claim C9: MIME validation is a containment test, not an equality test —
the configured pattern passed to `new RegExp(...)` accepts every mimetype in
which it occurs anywhere (no anchoring is added), and `_attachFile` then
proceeds without a validation error. -/
theorem mime_test_is_containment (cfg : Config) (inst : ModelInstance)
    (file : StagedFile) (ac : Bool) (pre post : List Char)
    (h : file.mimetype.data = pre ++ cfg.mimetype ++ post) :
    jsRegexTestLit cfg.mimetype file.mimetype = true ∧
    (cfg.sizes = none → (attachFile cfg inst file ac).error = none) := by
  have h1 : jsRegexTestLit cfg.mimetype file.mimetype = true := by
    rw [jsRegexTestLit, h]
    exact occursIn_append_middle cfg.mimetype pre post
  refine ⟨h1, fun hs => ?_⟩
  cases hcb : cfg.cleanup with
  | false => simp [attachFile, h1, hs, hcb]
  | true =>
    cases hp : inst.pathVal with
    | none => simp [attachFile, destroyFileRun, h1, hs, hcb, hp]
    | some p =>
      by_cases hpe : (p == "") = true
      · simp [attachFile, destroyFileRun, h1, hs, hcb, hp, hpe]
      · simp [attachFile, destroyFileRun, h1, hs, hcb, hp, hpe]

/-- Witness for C9: `/image/` accepts `application/image+xml`, where the
pattern occurs strictly inside the string. -/
theorem mime_test_is_containment_witness :
    jsRegexTestLit (mkConfig sampleO).mimetype sampleGoodXml.mimetype = true ∧
    (attachFile (mkConfig sampleO) sampleInst sampleGoodXml false).error = none := by
  have h := mime_test_is_containment (mkConfig sampleO) sampleInst sampleGoodXml false
    "application/".data "+xml".data (by decide)
  exact ⟨h.1, h.2 rfl⟩

/-- Claim C10: the inline fallback wrong-type message in `_attachFile`
(which would raise a `ReferenceError` on the out-of-scope identifier
`mimetype`) is unreachable for every construction of the field, because the
constructor always assigns a non-empty wrong-type message; the thrown
validation error therefore always carries the configured-or-default
message. -/
theorem wrong_type_fallback_unreachable (o : FieldOptions) (inst : ModelInstance)
    (file : StagedFile) (ac : Bool) :
    attachWrongTypeMessage (mkConfig o) = .val (mkConfig o).wrongTypeMessage ∧
    (mkConfig o).wrongTypeMessage ≠ "" ∧
    (jsRegexTestLit (mkConfig o).mimetype file.mimetype = false →
      (attachFile (mkConfig o) inst file ac).error
        = some (.validation (mkConfig o).wrongTypeMessage
            (mkConfig o).virtualAttribute)) := by
  refine ⟨attachWrongTypeMessage_mkConfig o, ?_, fun h => ?_⟩
  · have := mkConfig_wrongTypeMessage_ne o
    simp only [beq_eq_false_iff_ne, Ne] at this
    exact this
  · simp [attachFile, h, attachWrongTypeMessage_mkConfig o]

/-- Witness for C10 at concrete inputs (the after-create pass). -/
theorem wrong_type_fallback_unreachable_witness :
    (attachFile (mkConfig sampleO) sampleInst sampleBad true).error
      = some (.validation (mkConfig sampleO).wrongTypeMessage
          (mkConfig sampleO).virtualAttribute) :=
  (wrong_type_fallback_unreachable sampleO sampleInst sampleBad true).2.2 (by decide)

/-- Claim C4 (amended): when the virtual attribute is explicitly `null` at
hook time and every configured size descriptor is scalar- or string-form
(so the `_forEachSize` loop inside `_destroyFileHook` does not raise — see
C3), `_setFile` clears the persisted path attribute, and exactly when
cleanup is enabled it runs the stored-file deletion: every configured
derivative of the previously stored path followed by the original; with
cleanup disabled no file deletion is attempted.  With an object-form
descriptor, cleanup on and a stored path, the hook instead throws out of
the cleanup iteration before `setDataValue(PATH, null)` (see the
counterexample). -/
theorem setFile_null_clears (cfg : Config) (mp : String) (env : HookEnv)
    (ac : Bool) (inst : ModelInstance) (h : inst.virtualVal = .null) :
    (cfg.cleanup = false →
      setFileRun cfg mp inst env ac
        = { effects := [HookEffect.writePathAttr none]
            inst := { inst with pathVal := none }
            error := none }) ∧
    (∀ (p : String), cfg.cleanup = true → inst.pathVal = some p → (p == "") = false →
      cfg.sizes = none →
      setFileRun cfg mp inst env ac
        = { effects := [HookEffect.unlinkFile (fromPublic cfg.publicPath p),
              HookEffect.writePathAttr none]
            inst := { inst with pathVal := none }
            error := none }) ∧
    (∀ (p : String) (sizes : List (String × SizeDesc)),
      cfg.cleanup = true → inst.pathVal = some p → (p == "") = false →
      cfg.sizes = some sizes → sizes.all (fun nd => !isObjDesc nd.2) = true →
      setFileRun cfg mp inst env ac
        = { effects := (sizes.map fun nd =>
              HookEffect.unlinkFile (pathWithSizeStr (fromPublic cfg.publicPath p) nd.1))
            ++ [HookEffect.unlinkFile (fromPublic cfg.publicPath p),
                HookEffect.writePathAttr none]
            inst := { inst with pathVal := none }
            error := none }) := by
  have hb : setFileBranch inst.virtualVal = .nullClear := by rw [h]; rfl
  have hrun : ∀ (fx : List String),
      (if cfg.cleanup then destroyFileRun cfg inst else ([], none)) = (fx, none) →
      setFileRun cfg mp inst env ac
        = { effects := fx.map HookEffect.unlinkFile ++ [HookEffect.writePathAttr none]
            inst := { inst with pathVal := none }
            error := none } := by
    intro fx hfx
    unfold setFileRun
    rw [hb, hfx]
  refine ⟨fun hc => ?_, fun p hc hp hpe hs => ?_, fun p sizes hc hp hpe hs hobj => ?_⟩
  · rw [hrun [] (by simp [hc])]
    simp
  · rw [hrun [fromPublic cfg.publicPath p] (by simp [hc, destroyFileRun, hp, hpe, hs])]
    simp
  · rw [hrun (sizes.map (fun nd => pathWithSizeStr (fromPublic cfg.publicPath p) nd.1)
        ++ [fromPublic cfg.publicPath p])
      (by simp [hc, destroyFileRun, hp, hpe, hs, destroyForEach_all_not_obj _ _ hobj])]
    simp [List.append_assoc]

/-- Witness for C4: cleanup enabled, one scalar derivative descriptor, a
stored path `/uploads/a.png` with public prefix `public`: full deletion and
a cleared path attribute. -/
theorem setFile_null_clears_witness :
    setFileRun (mkConfig oCleanup) "mp" nullInst envAny false
      = { effects := ([("small", SizeDesc.num 64)].map fun nd =>
            HookEffect.unlinkFile (pathWithSizeStr
              (fromPublic (mkConfig oCleanup).publicPath "/uploads/a.png") nd.1))
          ++ [HookEffect.unlinkFile (fromPublic (mkConfig oCleanup).publicPath "/uploads/a.png"),
              HookEffect.writePathAttr none]
          inst := { nullInst with pathVal := none }
          error := none } :=
  (setFile_null_clears (mkConfig oCleanup) "mp" envAny false nullInst
    rfl).2.2 "/uploads/a.png" [("small", SizeDesc.num 64)] rfl rfl (by decide) rfl (by decide)

/-- Counterexample for C4 as frozen: with cleanup on, a stored path
`/uploads/a.png` and sizes `{ thumb: { size: 64, quality: 80 } }`, the null
branch crashes inside the cleanup iteration (the `_forEachSize`
temporal-dead-zone error of C3) before `setDataValue(PATH, null)`: the path
attribute keeps its old value instead of being cleared, nothing — not even
the original — is deleted, and the hook raises. -/
theorem setFile_null_crash_counterexample :
    (setFileRun (mkConfig oCleanupObj) "mp" nullInst envAny false).inst.pathVal
      = some "/uploads/a.png" ∧
    (setFileRun (mkConfig oCleanupObj) "mp" nullInst envAny false).effects = [] ∧
    (setFileRun (mkConfig oCleanupObj) "mp" nullInst envAny false).error
      = some (.jsError "Cannot access size before initialization") := by
  decide

/-- Claim C5: the exported `pathWithSize` inserts `_name` before the last
dot-delimited extension of a string path, throws a `TypeError` on every
non-string argument, and repeated application with different names always
yields a string (never `undefined` or an error). -/
theorem pathWithSize_inserts (stem ext name : String) (v : JsValue) (n1 n2 p : String) :
    (stem ≠ "" → ext ≠ "" → '.' ∉ ext.data →
      pathWithSize (.str (stem ++ "." ++ ext)) name
        = .ok (stem ++ "_" ++ name ++ "." ++ ext)) ∧
    ((∀ s, v ≠ .str s) →
      pathWithSize v name = .error ("Path must be a string, but got " ++ typeofJs v)) ∧
    (∃ q r, pathWithSize (.str p) n1 = .ok q ∧ pathWithSize (.str q) n2 = .ok r) := by
  refine ⟨fun hs he hd => ?_, fun hv => ?_, ⟨_, _, rfl, rfl⟩⟩
  · have hed : ext.data ≠ [] := fun e => he (String.ext (by simp [e]))
    have hsd : stem.data ≠ [] := fun e => hs (String.ext (by simp [e]))
    have hdata : (stem ++ "." ++ ext).data = stem.data ++ '.' :: ext.data := by
      simp [String.data_append]
    have hsplit := splitAtLastCh_append '.' stem.data ext.data hed hd
    simp only [pathWithSize, pathWithSizeStr, replaceExtChars, hdata, hsplit]
    cases hsc : stem.data with
    | nil => exact absurd hsc hsd
    | cons a as =>
      refine congrArg Except.ok (String.ext ?_)
      simp [String.data_append, hsc]
  · cases v with
    | str s => exact absurd rfl (hv s)
    | num n => rfl
    | boolean b => rfl
    | null => rfl
    | undef => rfl

/-- Witness for C5: insertion on `photo.png`, the `TypeError` on `null`,
and double application. -/
theorem pathWithSize_inserts_witness :
    (pathWithSize (.str ("photo" ++ "." ++ "png")) "small"
      = .ok ("photo" ++ "_" ++ "small" ++ "." ++ "png")) ∧
    (pathWithSize .null "small"
      = .error ("Path must be a string, but got " ++ typeofJs .null)) ∧
    (∃ q r, pathWithSize (.str "photo.png") "a" = .ok q ∧
      pathWithSize (.str q) "b" = .ok r) :=
  ⟨(pathWithSize_inserts "photo" "png" "small" .null "a" "b" "photo.png").1
      (by decide) (by decide) (by decide),
   (pathWithSize_inserts "photo" "png" "small" .null "a" "b" "photo.png").2.1
      (fun s => by simp),
   (pathWithSize_inserts "photo" "png" "small" .null "a" "b" "photo.png").2.2⟩

/-- Claim C6: `_publicPath` strips the configured public prefix exactly when
it occurs literally at the start of the path (metacharacters of the prefix
are escaped, hence literal), and returns the path unchanged otherwise. -/
theorem publicPath_strips_anchored (pub rest path : String) :
    (publicPath pub (pub ++ rest) = rest) ∧
    (matchHere path.data pub.data = false → publicPath pub path = path) := by
  constructor
  · have hm : matchHere (pub.data ++ rest.data) pub.data = true :=
      matchHere_append_self pub.data rest.data
    simp only [publicPath, String.data_append, hm, if_true, List.drop_left]
  · intro h
    simp [publicPath, h]

/-- Witness for C6: a prefix containing regex metacharacters is stripped
literally, and a non-matching prefix leaves the path unchanged. -/
theorem publicPath_strips_anchored_witness :
    (publicPath "pub(lic)" ("pub(lic)" ++ "/uploads/a.png") = "/uploads/a.png") ∧
    (publicPath "public" "/uploads/a.png" = "/uploads/a.png") :=
  ⟨(publicPath_strips_anchored "pub(lic)" "/uploads/a.png" "x").1,
   (publicPath_strips_anchored "public" "/x" "/uploads/a.png").2 (by decide)⟩

/-- Claim C7: `download` always issues the HEAD request first; a HEAD status
below 200 or at least 400 rejects with a message carrying the remote status
code and status message, performing no directory creation and no streaming;
a status in `[200, 400)` creates the staging directory, streams the GET body
to the staging file and resolves with the mimetype from the `content-type`
header and the staging path. -/
theorem download_head_gate (url path : String) (res : HeadResponse) :
    ((download url path res).1.head? = some (.headRequest url)) ∧
    (res.statusCode < 200 ∨ 400 ≤ res.statusCode →
      download url path res = ([.headRequest url], .error (downloadErrorMessage url res))) ∧
    (downloadErrorMessage url res
      = "Can\x27t download resource: \"" ++ url ++ "\" responded with \""
          ++ toString res.statusCode ++ ": " ++ res.statusMessage ++ "\"") ∧
    (∀ dir, 200 ≤ res.statusCode → res.statusCode < 400 → basePathOf path = some dir →
      download url path res
        = ([.headRequest url, .mkdirpDir dir, .streamGet url path],
           .ok { mimetype := res.contentType, path := path })) := by
  refine ⟨?_, fun h => ?_, rfl, fun dir h1 h2 hdir => ?_⟩
  · unfold download
    by_cases hc : res.statusCode < 200 ∨ 400 ≤ res.statusCode
    · rw [if_pos hc]
      rfl
    · rw [if_neg hc]
      cases hb : basePathOf path <;> rfl
  · unfold download
    rw [if_pos h]
  · have hn : ¬(res.statusCode < 200 ∨ 400 ≤ res.statusCode) := by omega
    unfold download
    rw [if_neg hn, hdir]

/-- Witness for C7: a 404 rejects with its status line, a 200 streams into
the staging directory and resolves. -/
theorem download_head_gate_witness :
    (download "http://x/a.png" "public/uploads/1/a.png"
        { statusCode := 404, statusMessage := "Not Found", contentType := "text/html" }
      = ([.headRequest "http://x/a.png"],
         .error (downloadErrorMessage "http://x/a.png"
           { statusCode := 404, statusMessage := "Not Found", contentType := "text/html" }))) ∧
    (download "http://x/a.png" "public/uploads/1/a.png"
        { statusCode := 200, statusMessage := "OK", contentType := "image/png" }
      = ([.headRequest "http://x/a.png", .mkdirpDir "public/uploads/1",
          .streamGet "http://x/a.png" "public/uploads/1/a.png"],
         .ok { mimetype := "image/png", path := "public/uploads/1/a.png" })) :=
  ⟨(download_head_gate "http://x/a.png" "public/uploads/1/a.png"
      { statusCode := 404, statusMessage := "Not Found", contentType := "text/html" }).2.1
      (by decide),
   (download_head_gate "http://x/a.png" "public/uploads/1/a.png"
      { statusCode := 200, statusMessage := "OK", contentType := "image/png" }).2.2.2
      "public/uploads/1" (by decide) (by decide) (by decide)⟩

/-- Claim C8: the planned destination path obeys the grouping toggles.
With `folderKey: null` (and grouping by attribute on) the per-instance
segment is omitted and the random suffix `_hash` (5 characters of
`Math.random().toString(36)`) is spliced in before the filename extension;
with `groupByAttribute: false` the pluralized attribute segment is omitted
from the model folder; with both at their defaults the path is
`<basePath>/<pluralized model>/<pluralized attribute>/<folderKey value>/<original filename>`
with no suffix. -/
theorem grouping_toggles (pl : String → String) (cfg : Config) (modelName : String)
    (inst : ModelInstance) (hash tmp fname base ext : String)
    (h1 : nameFromUrl tmp = some fname) (h2 : getFileInfo fname = (base, ext))
    (_h5 : hash.length = 5) :
    (cfg.folderKey = none → cfg.groupByAttribute = true →
      getFileNameForMoving cfg (modelPathOf pl cfg modelName) inst hash tmp
        = some (cfg.basePath ++ "/" ++ pl modelName.toLower ++ "/"
            ++ pl cfg.virtualAttribute.toLower ++ "/"
            ++ (base ++ "_" ++ hash ++ "." ++ ext))) ∧
    (cfg.groupByAttribute = false →
      modelPathOf pl cfg modelName = cfg.basePath ++ "/" ++ pl modelName.toLower) ∧
    (∀ k, cfg.folderKey = some k → cfg.groupByAttribute = true →
      getFileNameForMoving cfg (modelPathOf pl cfg modelName) inst hash tmp
        = some (cfg.basePath ++ "/" ++ pl modelName.toLower ++ "/"
            ++ pl cfg.virtualAttribute.toLower ++ "/" ++ inst.folderKeyVal ++ "/"
            ++ fname)) := by
  refine ⟨fun hk hg => ?_, fun hg => ?_, fun k hk hg => ?_⟩
  · simp [getFileNameForMoving, instancePathOf, modelPathOf, h1, h2, hk, hg,
      String.append_assoc]
  · simp [modelPathOf, hg]
  · simp [getFileNameForMoving, instancePathOf, modelPathOf, h1, h2, hk, hg,
      String.append_assoc]

/-- Witness for C8: the default grouping produces
`.../models/pics/<id>/Lenna.png`, and `folderKey: null` produces
`.../models/pics/Lenna_<hash>.png`. -/
theorem grouping_toggles_witness :
    (getFileNameForMoving (mkConfig sampleO)
        (modelPathOf plEx (mkConfig sampleO) "model") sampleInst "abcde"
        "tmp/up/Lenna.png"
      = some ((mkConfig sampleO).basePath ++ "/" ++ plEx ("model").toLower ++ "/"
          ++ plEx (mkConfig sampleO).virtualAttribute.toLower ++ "/"
          ++ sampleInst.folderKeyVal ++ "/" ++ "Lenna.png")) ∧
    (getFileNameForMoving (mkConfig oNullKey)
        (modelPathOf plEx (mkConfig oNullKey) "model") sampleInst "abcde"
        "tmp/up/Lenna.png"
      = some ((mkConfig oNullKey).basePath ++ "/" ++ plEx ("model").toLower ++ "/"
          ++ plEx (mkConfig oNullKey).virtualAttribute.toLower ++ "/"
          ++ ("Lenna" ++ "_" ++ "abcde" ++ "." ++ "png"))) :=
  ⟨(grouping_toggles plEx (mkConfig sampleO) "model" sampleInst "abcde"
      "tmp/up/Lenna.png" "Lenna.png" "Lenna" "png"
      (by decide) (by decide) (by decide)).2.2 "id" rfl rfl,
   (grouping_toggles plEx (mkConfig oNullKey) "model" sampleInst "abcde"
      "tmp/up/Lenna.png" "Lenna.png" "Lenna" "png"
      (by decide) (by decide) (by decide)).1 rfl rfl⟩

/-- Claim C3 (refuted by the code): `_forEachSize` is meant to yield, for an
object descriptor `{ size, quality }`, its `size` field with its `quality`
as an option — but the source initializer `let size = typeof options ===
'object' ? size.size : options` reads the just-declared `size`, so any
object descriptor crashes the iteration with a `ReferenceError` (the
compiled lib build, a `TypeError` on `undefined`); scalar and string
descriptors are yielded unchanged with no quality, `parseSize` leaves either
axis omissible, and the resize default quality of 100 applies when no
quality reaches `resize`. -/
theorem forEachSize_object_descriptor_crashes :
    sizeCallOf "thumb" (.obj (.num 64) (some 80))
      = .referenceError "Cannot access size before initialization" ∧
    forEachSizeCalls [("thumb", SizeDesc.obj (.num 64) (some 80))]
      = .referenceError "Cannot access size before initialization" ∧
    sizeCallOf "small" (.num 64) = .val (.num 64, "small", none) ∧
    sizeCallOf "big" (.str "x300") = .val (.str "x300", "big", none) ∧
    resizeQuality none = 100 ∧
    parseSize "x300" = (none, some "300", none) ∧
    parseSize "64" = (some "64", none, none) ∧
    parseSize "150x350!" = (some "150", some "350", some "!") := by
  refine ⟨rfl, rfl, rfl, rfl, rfl, ?_, ?_, ?_⟩ <;> decide

end SequelizeFile
